import Mathlib

/-!
Shallow embedding of the crawl-and-archive pipeline in
`src/scripts/getmarks_pyqs.py` (the only source file of the repository).

External boundaries are modelled as pure oracles:
the image HTTP layer is a function `String → Option Response` (`none` is a
transport or non-2xx failure of `requests.get` / `raise_for_status`),
`hashlib.sha1` is an arbitrary function `String → String`, and the catalog
API is a `Catalog` record whose fields give the already-parsed results of
the paginated GET endpoints.  Everything downstream of those boundaries is
translated line by line from the Python source.
-/

namespace Getmarks

/-- Python truthiness of an optional string: `None` and `""` are falsy. -/
def truthy (o : Option String) : Bool := !(o.getD "").isEmpty

/-- Python f-string rendering of an optional value (`None` prints as `"None"`). -/
def optStr : Option String → String
  | none => "None"
  | some s => s

/-- Python's `if image_ref:` guard: an empty or absent string is dropped. -/
def pyTruthyOpt : Option String → Option String
  | none => none
  | some s => if s = "" then none else some s

/-- Left-pad a numeral with zeros to width 4, modelling the format spec `04d`. -/
def pad4 (n : Nat) : String :=
  let s := toString n
  if s.length < 4 then String.mk (List.replicate (4 - s.length) '0') ++ s else s

/-- Boolean list-prefix test (used to implement the substring test below). -/
def isPreList : List Char → List Char → Bool
  | [], _ => true
  | _ :: _, [] => false
  | a :: as, b :: bs => a == b && isPreList as bs

/-- Boolean infix test on character lists. -/
def hasInfixList (needle : List Char) : List Char → Bool
  | [] => isPreList needle []
  | b :: bs => isPreList needle (b :: bs) || hasInfixList needle bs

/-- Python's `needle in hay` on strings. -/
def strContains (hay needle : String) : Bool :=
  hasInfixList needle.toList hay.toList

/-- Python's `s.startswith(pre)`. -/
def strStarts (s pre : String) : Bool := isPreList pre.toList s.toList

/-- Python's `s.upper()` (ASCII, which is all the program compares). -/
def strUpper (s : String) : String := String.mk (s.toList.map Char.toUpper)

/-- Python's `s.lower()` (ASCII, which is all the program compares). -/
def strLower (s : String) : String := String.mk (s.toList.map Char.toLower)

/-- Characters strictly before the first occurrence of `c`. -/
def takeUntilChar (c : Char) : List Char → List Char
  | [] => []
  | a :: as => if a == c then [] else a :: takeUntilChar c as

/-- Scan for the literal `"://"`; on success return the characters after it. -/
def afterSchemeSep : List Char → Option (List Char)
  | ':' :: '/' :: '/' :: rest => some rest
  | _ :: rest => afterSchemeSep rest
  | [] => none

/-- Drop the host part: the path starts at the first `/` (kept). -/
def pathFromHost : List Char → List Char
  | [] => []
  | '/' :: rest => '/' :: rest
  | _ :: rest => pathFromHost rest

/-- The path component of a URL, modelling `urllib.parse.urlparse(url).path`
for the URL shapes the program handles: strip the fragment (after `#`) and
query (after `?`); if a `scheme://host` part is present, the path is what
follows the first `/` after the host, else the whole remainder is the path. -/
def urlPath (url : String) : String :=
  let cs := takeUntilChar '?' (takeUntilChar '#' url.toList)
  match afterSchemeSep cs with
  | none => String.mk cs
  | some rest => String.mk (pathFromHost rest)

/-- The extension part of `os.path.splitext`: the suffix from the last dot of
the last path segment, provided some earlier character of that segment is not
a dot (so dotfiles such as `.bashrc` have no extension). -/
def extChars (b : List Char) : List Char :=
  let rev := b.reverse
  let afterDot := rev.takeWhile (fun c => c ≠ '.')
  if afterDot.length = b.length then []
  else
    let stem := b.take (b.length - afterDot.length - 1)
    if stem.any (fun c => c ≠ '.') then '.' :: afterDot.reverse else []

/-- Last `/`-separated segment of a path. -/
def lastSeg (cs : List Char) : List Char :=
  (cs.reverse.takeWhile (fun c => c ≠ '/')).reverse

/-- `os.path.splitext(path)[1]`. -/
def splitextExt (path : String) : String :=
  String.mk (extChars (lastSeg path.toList))

/-- `pathlib.PurePath(name).stem`: strip the last suffix of the final
component, where a suffix needs a dot that is neither first nor last. -/
def pathlibStem (name : String) : String :=
  let cs := name.toList
  let afterDot := cs.reverse.takeWhile (fun c => c ≠ '.')
  if afterDot.length = cs.length then name
  else
    let i := cs.length - afterDot.length - 1
    if 0 < i ∧ i < cs.length - 1 then String.mk (cs.take i) else name

/-- `get_file_extension(url, content_type)` from the source: extension of the
URL path if present (lower-cased), else sniffed from the content type
(png / jpeg / webp / svg), else `".jpg"`. -/
def get_file_extension (url : String) (contentType : Option String) : String :=
  let ext := splitextExt (urlPath url)
  if ext ≠ "" then strLower ext
  else
    match contentType with
    | some ct =>
      if ct ≠ "" then
        if strContains ct "image/png" then ".png"
        else if strContains ct "image/jpeg" || strContains ct "image/jpg" then ".jpg"
        else if strContains ct "image/webp" then ".webp"
        else if strContains ct "image/svg" then ".svg"
        else ".jpg"
      else ".jpg"
    | none => ".jpg"

/-- An HTTP response for an image fetch; only the declared content type is
observable by the code under study. -/
structure Response where
  contentType : Option String
deriving DecidableEq

/-- The save path handed to `ImageStore.download`: its path relative to the
output root (`save_path.relative_to(OUTPUT_DIR)`) and its `pathlib` stem. -/
structure SavePath where
  rel : String
  stem : String
deriving DecidableEq

/-- A storage side effect performed by `ImageStore.download`. -/
inductive StoreEffect where
  | localWrite (path : String)
  | s3Upload (key : String)
deriving DecidableEq

/-- Result of one `ImageStore.download` call: the returned optional locator,
whether an HTTP fetch was attempted, and the storage effect performed. -/
structure DownloadResult where
  result : Option String
  fetched : Bool
  stored : Option StoreEffect
deriving DecidableEq

/-- `ImageStore` state after `__init__`. -/
structure ImageStore where
  backend : String
  s3Bucket : Option String
  s3Pre : Option String
  s3Region : Option String
deriving DecidableEq

/-- `ImageStore.__init__(backend)`: for the `"s3"` backend a missing or empty
`S3_BUCKET` aborts startup (`SystemExit`); every other backend constructs
successfully with the s3 fields left `None`. -/
def ImageStore.init (backend : String) (envBucket envPre envRegion : Option String) :
    Except String ImageStore :=
  if backend = "s3" then
    if (envBucket.getD "") = "" then Except.error "S3_BUCKET is required for IMAGE_BACKEND=s3"
    else Except.ok ⟨backend, envBucket, some (envPre.getD "getmarks"), envRegion⟩
  else Except.ok ⟨backend, none, none, none⟩

/-- `ImageStore._build_s3_url`. -/
def ImageStore.buildS3Url (st : ImageStore) (key : String) : String :=
  if truthy st.s3Region then
    "https://" ++ optStr st.s3Bucket ++ ".s3." ++ optStr st.s3Region ++ ".amazonaws.com/" ++ key
  else
    "s3://" ++ optStr st.s3Bucket ++ "/" ++ key

/-- `ImageStore.download(url, save_path)`.  An empty or root-relative URL is a
no-op before any fetch.  A failed fetch, and the `ValueError` raised for an
unsupported backend, are swallowed by the catch-all `except` and yield `None`.
The Python method can also raise nowhere else, which the embedding reflects by
being a total function. -/
def ImageStore.download (st : ImageStore) (fetch : String → Option Response)
    (url : String) (sp : SavePath) : DownloadResult :=
  if url == "" || strStarts url "/" then ⟨none, false, none⟩
  else
    match fetch url with
    | none => ⟨none, true, none⟩
    | some resp =>
      if st.backend = "local" then
        ⟨some sp.rel, true, some (StoreEffect.localWrite sp.rel)⟩
      else if st.backend = "s3" then
        let ext := get_file_extension url resp.contentType
        let key := optStr st.s3Pre ++ "/" ++ sp.stem ++ ext
        ⟨some (st.buildS3Url key), true, some (StoreEffect.s3Upload key)⟩
      else ⟨none, true, none⟩

/-- A raw choice of a `RawItem` (`question["options"][i]`), with the `.get`
defaults already applied: `text` defaults to `""`, an absent or empty image
reference is `""`, `isCorrect` defaults to `False`. -/
structure RawOption where
  text : String
  image : String
  isCorrect : Bool
deriving DecidableEq

/-- A well-formed `RawItem` payload, with absent-safe `.get` access folded in:
optional scalar fields are `Option`, optional text defaults to `""`, an
absent image reference or empty `question["question"]` dict is `""`, and
`pyqTitles` is the list of `title` values of `previousYearPapers` entries
(each defaulted to `""`). -/
structure RawQuestion where
  type : Option String
  level : Option String
  pyqTitles : List String
  questionText : String
  questionImage : String
  options : List RawOption
  correctValue : Option String
  solutionText : String
  solutionImage : String
deriving DecidableEq

/-- One fetched catalog item: either a well-formed mapping payload, or a
malformed payload on which `process_question` raises (modelled abstractly,
since only the raising behaviour is observable through the `except`). -/
inductive Item where
  | ok (q : RawQuestion)
  | bad
deriving DecidableEq

/-- A normalized text+image block (`processed["question"]` / `["solution"]`). -/
structure PBlock where
  text : String
  image : Option String
deriving DecidableEq

/-- A normalized choice (`processed["options"][i]`). -/
structure PChoice where
  text : String
  isCorrect : Bool
  image : Option String
deriving DecidableEq

/-- The `correct_answer` field: the raw `correctValue` for numerical items
(possibly `None`), or a list of choice labels otherwise. -/
inductive Answer where
  | value : Option String → Answer
  | labels : List String → Answer
deriving DecidableEq

/-- A `CanonicalRecord` as built by `process_question`. -/
structure PQuestion where
  index : Nat
  type : Option String
  difficulty : Option String
  pyqInfo : String
  question : PBlock
  options : List PChoice
  correctAnswer : Answer
  solution : PBlock
deriving DecidableEq

/-- The `letters` list of `process_question`. -/
def letters : List String := ["A", "B", "C", "D"]

/-- `letters[i] if i < len(letters) else str(i + 1)`. -/
def optionLabel (i : Nat) : String :=
  if i < letters.length then letters.getD i "" else toString (i + 1)

/-- One image-handling block of `process_question` (shared shape of the body,
choice and solution blocks): if the raw reference is truthy, hash the URL,
derive the extension from the URL alone (no content type is available before
the fetch), build the save path under `img_dir`, call `download`, and keep
the returned locator only if truthy.  Returns the optional stored locator and
the trace of `download` invocations made. -/
def assetStep (st : ImageStore) (fetch : String → Option Response)
    (sha1h : String → String) (imgDir namePre url : String) :
    Option String × List (String × DownloadResult) :=
  if url ≠ "" then
    let ext := get_file_extension url none
    let name := namePre ++ sha1h url ++ ext
    let sp : SavePath := ⟨imgDir ++ "/" ++ name, pathlibStem name⟩
    let r := st.download fetch url sp
    (pyTruthyOpt r.result, [(url, r)])
  else (none, [])

/-- The `for i, opt in enumerate(options)` loop of `process_question`,
started at position `i`: builds the processed options, the `correct_letters`
list, and the trace of `download` invocations, in source order. -/
def optionsLoop (st : ImageStore) (fetch : String → Option Response)
    (sha1h : String → String) (imgDir : String) (idx : Nat) :
    List RawOption → Nat → List PChoice × List String × List (String × DownloadResult)
  | [], _ => ([], [], [])
  | opt :: rest, i =>
    let corrHere : List String := if opt.isCorrect then [optionLabel i] else []
    let ar :=
      assetStep st fetch sha1h imgDir ("opt" ++ toString (i + 1) ++ "_" ++ pad4 idx ++ "_") opt.image
    let r := optionsLoop st fetch sha1h imgDir idx rest (i + 1)
    (⟨opt.text, opt.isCorrect, ar.1⟩ :: r.1, corrHere ++ r.2.1, ar.2 ++ r.2.2)

/-- `process_question(question, exam_id, subject_id, chapter_id, idx,
image_store)` on a well-formed payload, together with the ordered trace of
`ImageStore.download` invocations it makes. -/
def process_question (st : ImageStore) (fetch : String → Option Response)
    (sha1h : String → String) (examId subjectId chapterId : String)
    (q : RawQuestion) (idx : Nat) : PQuestion × List (String × DownloadResult) :=
  let imgDir := "images/" ++ examId ++ "/" ++ subjectId ++ "/" ++ chapterId
  let aq := assetStep st fetch sha1h imgDir ("q_" ++ pad4 idx ++ "_") q.questionImage
  let ro := optionsLoop st fetch sha1h imgDir idx q.options 0
  let ans := if q.type = some "numerical" then Answer.value q.correctValue
    else Answer.labels ro.2.1
  let as := assetStep st fetch sha1h imgDir ("sol_" ++ pad4 idx ++ "_") q.solutionImage
  (⟨idx, q.type, q.level, q.pyqTitles.headD "",
    ⟨q.questionText, aq.1⟩, ro.1, ans, ⟨q.solutionText, as.1⟩⟩,
   aq.2 ++ ro.2.2 ++ as.2)

/-- An exam node (`{"id": examId, "name": title}`) as built by `get_jee_exams`. -/
structure Exam where
  id : String
  name : String
deriving DecidableEq

/-- A subject node as returned by `get_subjects` (id and name non-empty). -/
structure Subject where
  id : String
  name : String
deriving DecidableEq

/-- A chapter node as returned by `get_chapters`; `totalQuestions` is the
advisory `allPyqs.totalQs` count from the catalog. -/
structure Chapter where
  id : String
  name : String
  totalQuestions : Nat
deriving DecidableEq

/-- One component of the dashboard payload (`data.items[i]`): its
`componentTitle` and its exam entries (an `examId` of `""` models an absent
or empty id, which Python treats as falsy). -/
structure DashExam where
  examId : String
  title : String
deriving DecidableEq

structure DashComponent where
  componentTitle : String
  items : List DashExam
deriving DecidableEq

/-- The catalog API boundary: the already-parsed results of the four
paginated GET endpoints.  `dashboard = none` models a failed dashboard
request (`make_request` returned `None`). -/
structure Catalog where
  dashboard : Option (List DashComponent)
  subjects : String → List Subject
  chapters : String → String → List Chapter
  questions : String → String → String → List Item

/-- The run configuration (environment surface). A filter of `""` is unset
(Python truthiness of the env var); a quota of `0` is unset. -/
structure Config where
  examIdFilter : String
  subjectIdFilter : String
  chapterIdFilter : String
  maxChapters : Nat
  maxQuestions : Nat
  gzipOut : Bool
  useDb : Bool
  store : ImageStore
  fetchImg : String → Option Response
  sha1h : String → String

/-- `get_jee_exams()`: find the `ChapterwiseExams` dashboard component, then
keep entries passing the `EXAM_ID` filter whose id is truthy and whose title
contains `JEE` or `IIT` case-insensitively. -/
def get_jee_exams (cat : Catalog) (cfg : Config) : List Exam :=
  match cat.dashboard with
  | none => []
  | some comps =>
    match comps.find? (fun c => c.componentTitle == "ChapterwiseExams") with
    | none => []
    | some comp =>
      comp.items.filterMap (fun ex =>
        if cfg.examIdFilter ≠ "" ∧ ex.examId ≠ cfg.examIdFilter then none
        else if ex.examId ≠ "" ∧
            (strContains (strUpper ex.title) "JEE" ∨ strContains (strUpper ex.title) "IIT") then
          some ⟨ex.examId, ex.title⟩
        else none)

/-- `ProgressTracker`. -/
structure Progress where
  totalExams : Nat
  totalSubjects : Nat
  totalChapters : Nat
  totalQuestions : Nat
  processedChapters : Nat
deriving DecidableEq

/-- One per-chapter output file and the records appended to it, in order. -/
structure FileOut where
  name : String
  lines : List PQuestion
deriving DecidableEq

/-- One row handed to `DatabaseWriter.insert_questions`. -/
structure QRow where
  examId : String
  subjectId : String
  chapterId : String
  questionIndex : Nat
  payload : PQuestion
deriving DecidableEq

/-- One row handed to `DatabaseWriter.upsert_chapter`. -/
structure ChRow where
  examId : String
  subjectId : String
  chapterId : String
  examName : String
  subjectName : String
  chapterName : String
  questionCount : Nat
deriving DecidableEq

/-- The `chapter_data` summary dict returned by `process_chapter`. -/
structure ChapterData where
  exam : String
  examId : String
  subject : String
  subjectId : String
  chapter : String
  chapterId : String
  totalQuestions : Nat
  file : String
deriving DecidableEq

/-- The `master_index` object. -/
structure MasterIndex where
  totalExams : Nat
  totalSubjects : Nat
  totalChapters : Nat
  totalQuestions : Nat
  chapters : List ChapterData
deriving DecidableEq

/-- The observable state of a run: the progress counters, the `all_data`
accumulator, and every externally visible write (jsonl files with their
lines, question rows and chapter rows handed to the database, and the
master-index writes performed). -/
structure RunState where
  progress : Progress
  allData : List ChapterData
  files : List FileOut
  questionRows : List QRow
  chapterRows : List ChRow
  indexWrites : List MasterIndex
deriving DecidableEq

/-- The `for idx, q in enumerate(raw_questions)` loop of `process_chapter`:
`idx` is the running enumeration index, `totalQ` the global
`progress.total_questions`, `qcount` the local `question_count`; `lines` and
`rows` accumulate the file lines written and the database rows buffered.  The
item quota breaks the loop; an exception from `process_question` (a malformed
payload) is caught and the item skipped. -/
def qLoop (cfg : Config) (examId subjectId chapterId : String) :
    List Item → Nat → Nat → Nat → List PQuestion → List QRow →
    List PQuestion × List QRow × Nat × Nat
  | [], _, totalQ, qcount, lines, rows => (lines, rows, qcount, totalQ)
  | it :: rest, idx, totalQ, qcount, lines, rows =>
    if cfg.maxQuestions ≠ 0 ∧ totalQ ≥ cfg.maxQuestions then (lines, rows, qcount, totalQ)
    else
      match it with
      | Item.bad => qLoop cfg examId subjectId chapterId rest (idx + 1) totalQ qcount lines rows
      | Item.ok q =>
        let p := (process_question cfg.store cfg.fetchImg cfg.sha1h
                    examId subjectId chapterId q idx).1
        qLoop cfg examId subjectId chapterId rest (idx + 1) (totalQ + 1) (qcount + 1)
          (lines ++ [p])
          (if cfg.useDb then rows ++ [⟨examId, subjectId, chapterId, idx, p⟩] else rows)

/-- `process_chapter(exam, subject, chapter, image_store, db_writer)`:
subject/chapter filters first, then the question fetch (empty means skip with
no file and no summary), then the jsonl stream, the item loop, the final
batch flush, the chapter summary upsert and the processed-chapter counter.
Returns the updated run state and the optional `chapter_data`. -/
def process_chapter (cfg : Config) (cat : Catalog) (exam : Exam) (subject : Subject)
    (chapter : Chapter) (st : RunState) : RunState × Option ChapterData :=
  if cfg.subjectIdFilter ≠ "" ∧ subject.id ≠ cfg.subjectIdFilter then (st, none)
  else if cfg.chapterIdFilter ≠ "" ∧ chapter.id ≠ cfg.chapterIdFilter then (st, none)
  else
    let raw := cat.questions exam.id subject.id chapter.id
    if raw = [] then (st, none)
    else
      let fileName := exam.id ++ "_" ++ subject.id ++ "_" ++ chapter.id ++ ".jsonl"
          ++ (if cfg.gzipOut then ".gz" else "")
      let r := qLoop cfg exam.id subject.id chapter.id raw 0 st.progress.totalQuestions 0 [] []
      let cdata : ChapterData := ⟨exam.name, exam.id, subject.name, subject.id,
        chapter.name, chapter.id, r.2.2.1, fileName⟩
      ({ st with
          progress := { st.progress with
            totalQuestions := r.2.2.2,
            processedChapters := st.progress.processedChapters + 1 },
          files := st.files ++ [⟨fileName, r.1⟩],
          questionRows := st.questionRows ++ r.2.1,
          chapterRows := st.chapterRows ++
            (if cfg.useDb then
              [⟨exam.id, subject.id, chapter.id, exam.name, subject.name, chapter.name, r.2.2.1⟩]
            else []) },
       some cdata)

/-- One iteration body of the `for chapter in chapters` loop of `main`:
call `process_chapter` and append the returned `chapter_data` (if any) to
`all_data`. -/
def chapterStep (cfg : Config) (cat : Catalog) (exam : Exam) (subject : Subject)
    (chapter : Chapter) (st : RunState) : RunState :=
  let r := process_chapter cfg cat exam subject chapter st
  match r.2 with
  | some d => { r.1 with allData := r.1.allData ++ [d] }
  | none => r.1

/-- The `for chapter in chapters` loop of `main`, with the `MAX_CHAPTERS`
check at the top of each iteration and the `all_data.append`. -/
def chaptersLoop (cfg : Config) (cat : Catalog) (exam : Exam) (subject : Subject) :
    List Chapter → RunState → RunState
  | [], st => st
  | c :: rest, st =>
    if cfg.maxChapters ≠ 0 ∧ st.progress.processedChapters ≥ cfg.maxChapters then st
    else chaptersLoop cfg cat exam subject rest (chapterStep cfg cat exam subject c st)

/-- The `for subject in subjects` loop of `main`: fetch and filter chapters,
bump the chapter counter, run the chapter loop, and break out when the
chapter quota is reached. -/
def subjectsLoop (cfg : Config) (cat : Catalog) (exam : Exam) :
    List Subject → RunState → RunState
  | [], st => st
  | s :: rest, st =>
    let chs0 := cat.chapters exam.id s.id
    let chs := if cfg.chapterIdFilter ≠ "" then
        chs0.filter (fun c => c.id == cfg.chapterIdFilter) else chs0
    let st1 := { st with progress :=
      { st.progress with totalChapters := st.progress.totalChapters + chs.length } }
    let st2 := chaptersLoop cfg cat exam s chs st1
    if cfg.maxChapters ≠ 0 ∧ st2.progress.processedChapters ≥ cfg.maxChapters then st2
    else subjectsLoop cfg cat exam rest st2

/-- The `for exam in exams` loop of `main`. -/
def examsLoop (cfg : Config) (cat : Catalog) : List Exam → RunState → RunState
  | [], st => st
  | e :: rest, st =>
    let subs0 := cat.subjects e.id
    let subs := if cfg.subjectIdFilter ≠ "" then
        subs0.filter (fun s => s.id == cfg.subjectIdFilter) else subs0
    let st1 := { st with progress :=
      { st.progress with totalSubjects := st.progress.totalSubjects + subs.length } }
    let st2 := subjectsLoop cfg cat e subs st1
    if cfg.maxChapters ≠ 0 ∧ st2.progress.processedChapters ≥ cfg.maxChapters then st2
    else examsLoop cfg cat rest st2

/-- The initial run state. -/
def initState : RunState := ⟨⟨0, 0, 0, 0, 0⟩, [], [], [], [], []⟩

/-- `main()`: fetch the exam list (which sets `progress.total_exams`); an
empty list aborts the run before any traversal and before any index write;
otherwise run the traversal and write `master_index.json` once at the end. -/
def mainRun (cfg : Config) (cat : Catalog) : RunState :=
  let exams := get_jee_exams cat cfg
  let st0 : RunState :=
    { initState with progress := { initState.progress with totalExams := exams.length } }
  if exams = [] then st0
  else
    let st := examsLoop cfg cat exams st0
    let mi : MasterIndex := ⟨st.progress.totalExams, st.progress.totalSubjects,
      st.progress.totalChapters, st.progress.totalQuestions, st.allData⟩
    { st with indexWrites := st.indexWrites ++ [mi] }

/-- Total number of records appended across all output streams of a run. -/
def totalRecords (st : RunState) : Nat :=
  (st.files.map (fun f => f.lines.length)).sum

/-- The record written for the enumerated item `p`, if any: a well-formed
item yields its normalized record, a malformed one is skipped. -/
def lineOf (cfg : Config) (examId subjectId chapterId : String) (p : Nat × Item) :
    Option PQuestion :=
  match p.2 with
  | Item.ok q => some (process_question cfg.store cfg.fetchImg cfg.sha1h
      examId subjectId chapterId q p.1).1
  | Item.bad => none

/-- The invariant carried through the traversal for the quota laws: the
records appended across all streams equal the global item counter, the
`all_data` accumulator tracks the processed-chapter counter, and both
counters respect their configured quotas. -/
def quotaInv (cfg : Config) (st : RunState) : Prop :=
  totalRecords st = st.progress.totalQuestions ∧
  st.allData.length = st.progress.processedChapters ∧
  (cfg.maxQuestions ≠ 0 → st.progress.totalQuestions ≤ cfg.maxQuestions) ∧
  (cfg.maxChapters ≠ 0 → st.progress.processedChapters ≤ cfg.maxChapters)

/-- Choice label as the specification words it: `"A"`, `"B"`, `"C"`, `"D"`
for the first four positions, the 1-based numeral string beyond. -/
def labelSpec (i : Nat) : String :=
  if i < 4 then ["A", "B", "C", "D"].getD i "" else toString (i + 1)

/-- `correct_answer` for non-numerical items as the specification words it:
the ordered list of labels of the choices flagged correct, in choice order. -/
def correctLabelsSpec (opts : List RawOption) : List String :=
  opts.enum.filterMap (fun p => if p.2.isCorrect then some (labelSpec p.1) else none)

/-! Concrete fixtures used by witnesses and counterexamples. -/

/-- A local-backend image store. -/
def store0 : ImageStore := ⟨"local", none, none, none⟩

/-- An image store constructed with an unsupported backend name. -/
def storeFtp : ImageStore := ⟨"ftp", none, none, none⟩

/-- An image HTTP layer on which every fetch fails. -/
def fetch0 : String → Option Response := fun _ => none

/-- An image HTTP layer that always succeeds declaring `image/png`. -/
def fetchPng : String → Option Response := fun _ => some ⟨some "image/png"⟩

/-- A concrete stand-in for `hashlib.sha1`. -/
def sha0 : String → String := fun _ => "h"

/-- A multi-choice item with a body image, four choice images and a solution
image (six asset references in total). -/
def q6 : RawQuestion :=
  ⟨some "singleCorrect", some "easy", [], "body", "u",
   [⟨"o1", "u", true⟩, ⟨"o2", "u", false⟩, ⟨"o3", "u", false⟩, ⟨"o4", "u", true⟩],
   none, "sol", "u"⟩

/-- A numerical item. -/
def qNum : RawQuestion := ⟨some "numerical", none, [], "b", "", [], some "42", "s", ""⟩

/-- A five-choice item with the first and fifth choices flagged correct. -/
def qFive : RawQuestion :=
  ⟨some "multipleCorrect", none, [], "b", "",
   [⟨"o1", "", true⟩, ⟨"o2", "", false⟩, ⟨"o3", "", false⟩, ⟨"o4", "", false⟩, ⟨"o5", "", true⟩],
   none, "s", ""⟩

/-- An item whose body-image URL path carries no extension. -/
def qC8 : RawQuestion :=
  ⟨some "numerical", none, [], "b", "https://h/img", [], some "4", "s", ""⟩

/-- A minimal well-formed item with no images. -/
def qSimple : RawQuestion := ⟨some "singleCorrect", none, [], "b", "", [], none, "s", ""⟩

/-- A configuration with an item quota of 1 and the database sink enabled. -/
def cfg0 : Config := ⟨"", "", "", 0, 1, false, true, store0, fetch0, sha0⟩

/-- A configuration with no quotas and the database sink enabled. -/
def cfgNoQ : Config := ⟨"", "", "", 0, 0, false, true, store0, fetch0, sha0⟩

/-- A configuration with a chapter quota of 1 and an item quota of 1. -/
def cfgQ : Config := ⟨"", "", "", 1, 1, false, true, store0, fetch0, sha0⟩

def exam0 : Exam := ⟨"e1", "JEE Main"⟩

def subj0 : Subject := ⟨"s1", "Physics"⟩

def chap0 : Chapter := ⟨"c1", "Ch1", 5⟩

/-- A catalog with one JEE exam, one subject, two chapters of one item each. -/
def cat0 : Catalog :=
  ⟨some [⟨"ChapterwiseExams", [⟨"e1", "JEE Main"⟩]⟩],
   fun _ => [⟨"s1", "Physics"⟩],
   fun _ _ => [⟨"c1", "Ch1", 5⟩, ⟨"c2", "Ch2", 5⟩],
   fun _ _ _ => [Item.ok qSimple]⟩

/-- A catalog whose single chapter has a malformed item between two
well-formed ones. -/
def catMix : Catalog :=
  ⟨some [⟨"ChapterwiseExams", [⟨"e1", "JEE Main"⟩]⟩],
   fun _ => [⟨"s1", "Physics"⟩],
   fun _ _ => [⟨"c1", "Ch1", 5⟩],
   fun _ _ _ => [Item.ok qSimple, Item.bad, Item.ok q6]⟩

/-- A catalog whose dashboard request failed: no exams are found. -/
def catEmpty : Catalog := ⟨none, fun _ => [], fun _ _ => [], fun _ _ _ => []⟩

/-- A run state in which one item has already been processed (the item quota
of `cfg0` is therefore already reached). -/
def stSat : RunState := ⟨⟨1, 1, 2, 1, 1⟩, [], [], [], [], []⟩

/-! Helper lemmas. -/

theorem download_unsupported_none (st : ImageStore) (h1 : st.backend ≠ "local")
    (h2 : st.backend ≠ "s3") (fetch : String → Option Response) (url : String)
    (sp : SavePath) : (st.download fetch url sp).result = none := by
  unfold ImageStore.download
  split
  · rfl
  · cases hf : fetch url <;> simp [hf, h1, h2]

theorem assetStep_none_of_unsupported (st : ImageStore) (h1 : st.backend ≠ "local")
    (h2 : st.backend ≠ "s3") (fetch : String → Option Response) (sha1h : String → String)
    (d pre u : String) : (assetStep st fetch sha1h d pre u).1 = none := by
  by_cases h : u = "" <;>
    simp [assetStep, h, pyTruthyOpt, download_unsupported_none st h1 h2]

theorem optionsLoop_image_none (st : ImageStore) (h1 : st.backend ≠ "local")
    (h2 : st.backend ≠ "s3") (fetch : String → Option Response) (sha1h : String → String)
    (d : String) (idx : Nat) :
    ∀ (opts : List RawOption) (i : Nat) (o : PChoice),
      o ∈ (optionsLoop st fetch sha1h d idx opts i).1 → o.image = none := by
  intro opts
  induction opts with
  | nil => intro i o ho; simp [optionsLoop] at ho
  | cons a rest ih =>
    intro i o ho
    simp only [optionsLoop] at ho
    rcases List.mem_cons.mp ho with h | h
    · subst h; exact assetStep_none_of_unsupported st h1 h2 fetch sha1h d _ a.image
    · exact ih (i + 1) o h

theorem assetStep_trace_length (st : ImageStore) (fetch : String → Option Response)
    (sha1h : String → String) (d pre u : String) :
    (assetStep st fetch sha1h d pre u).2.length ≤ 1 := by
  by_cases h : u = "" <;> simp [assetStep, h]

theorem optionsLoop_trace_length (st : ImageStore) (fetch : String → Option Response)
    (sha1h : String → String) (d : String) (idx : Nat) :
    ∀ (opts : List RawOption) (i : Nat),
      (optionsLoop st fetch sha1h d idx opts i).2.2.length ≤ opts.length := by
  intro opts
  induction opts with
  | nil => intro i; simp [optionsLoop]
  | cons a rest ih =>
    intro i
    have h1 := assetStep_trace_length st fetch sha1h d
      ("opt" ++ toString (i + 1) ++ "_" ++ pad4 idx ++ "_") a.image
    have h2 := ih (i + 1)
    simp only [optionsLoop, List.length_append, List.length_cons]
    omega

theorem optionLabel_eq_labelSpec (i : Nat) : optionLabel i = labelSpec i := rfl

theorem optionsLoop_letters (st : ImageStore) (fetch : String → Option Response)
    (sha1h : String → String) (d : String) (idx : Nat) :
    ∀ (opts : List RawOption) (i : Nat),
      (optionsLoop st fetch sha1h d idx opts i).2.1 =
        (opts.enumFrom i).filterMap
          (fun p => if p.2.isCorrect then some (optionLabel p.1) else none) := by
  intro opts
  induction opts with
  | nil => intro i; simp [optionsLoop]
  | cons a rest ih =>
    intro i
    simp only [optionsLoop, List.enumFrom, List.filterMap_cons]
    cases h : a.isCorrect <;> simp [h, ih (i + 1)]

/-! Claim theorems. -/

/-- C1: the `correct_answer` of a normalized record is type-dispatched — for
type `"numerical"` it is the raw declared `correctValue`; for every other
type it is the ordered list of labels of the choices whose correctness flag
is true, in choice order, labelled `A`/`B`/`C`/`D` for the first four
positions and by the 1-based numeral string beyond. -/
theorem c1_correct_answer_dispatch (st : ImageStore) (fetch : String → Option Response)
    (sha1h : String → String) (eid sid cid : String) (q : RawQuestion) (idx : Nat) :
    (q.type = some "numerical" →
      (process_question st fetch sha1h eid sid cid q idx).1.correctAnswer =
        Answer.value q.correctValue) ∧
    (q.type ≠ some "numerical" →
      (process_question st fetch sha1h eid sid cid q idx).1.correctAnswer =
        Answer.labels (correctLabelsSpec q.options)) := by
  constructor
  · intro h; simp [process_question, h]
  · intro h
    simp [process_question, h, correctLabelsSpec, List.enum,
      optionsLoop_letters, optionLabel_eq_labelSpec]

/-- C1 witness: a numerical item keeps its raw `correctValue`; a five-choice
item with the first and fifth choices correct gets labels `["A", "5"]`. -/
theorem c1_witness :
    (process_question store0 fetch0 sha0 "e" "s" "c" qNum 0).1.correctAnswer =
      Answer.value (some "42") ∧
    (process_question store0 fetch0 sha0 "e" "s" "c" qFive 0).1.correctAnswer =
      Answer.labels ["A", "5"] :=
  ⟨(c1_correct_answer_dispatch store0 fetch0 sha0 "e" "s" "c" qNum 0).1 (by decide),
   ((c1_correct_answer_dispatch store0 fetch0 sha0 "e" "s" "c" qFive 0).2
      (by decide)).trans (by decide)⟩

/-- C4: `ImageStore.download` returns `none` without attempting any fetch
when the reference is empty or root-relative, and returns `none` whenever the
fetch fails (transport error or non-2xx status, both modelled as
`fetch url = none`); being a total function, it raises nothing to its
caller. -/
theorem c4_download_failure_boundary (st : ImageStore) (fetch : String → Option Response)
    (url : String) (sp : SavePath) :
    (url = "" ∨ strStarts url "/" = true →
      st.download fetch url sp = ⟨none, false, none⟩) ∧
    (fetch url = none → (st.download fetch url sp).result = none) := by
  constructor
  · rintro (h | h) <;> simp [ImageStore.download, h]
  · intro h
    unfold ImageStore.download
    split
    · rfl
    · simp [h]

/-- C4 witness: a root-relative reference is a no-op with no fetch, and a
failing fetch yields `none`. -/
theorem c4_witness :
    store0.download fetch0 "/x" ⟨"r", "s"⟩ = ⟨none, false, none⟩ ∧
    (store0.download fetch0 "http://a/b.png" ⟨"r", "s"⟩).result = none :=
  ⟨(c4_download_failure_boundary store0 fetch0 "/x" ⟨"r", "s"⟩).1 (Or.inr (by decide)),
   (c4_download_failure_boundary store0 fetch0 "http://a/b.png" ⟨"r", "s"⟩).2 rfl⟩

/-- C5 counterexample: a question whose body, four choices and solution all
carry asset references makes six `download` invocations, refuting the claimed
bound of three. -/
theorem c5_cex :
    ¬ (process_question store0 fetch0 sha0 "e" "s" "c" q6 0).2.length ≤ 3 := by decide

/-- C5 (amended): one `process_question` call invokes `ImageStore.download`
at most `2 + (number of choices)` times — at most once for the body, at most
once per choice, and at most once for the solution. -/
theorem c5_download_call_bound (st : ImageStore) (fetch : String → Option Response)
    (sha1h : String → String) (eid sid cid : String) (q : RawQuestion) (idx : Nat) :
    (process_question st fetch sha1h eid sid cid q idx).2.length ≤ 2 + q.options.length := by
  have h1 := assetStep_trace_length st fetch sha1h
    ("images/" ++ eid ++ "/" ++ sid ++ "/" ++ cid) ("q_" ++ pad4 idx ++ "_") q.questionImage
  have h2 := optionsLoop_trace_length st fetch sha1h
    ("images/" ++ eid ++ "/" ++ sid ++ "/" ++ cid) idx q.options 0
  have h3 := assetStep_trace_length st fetch sha1h
    ("images/" ++ eid ++ "/" ++ sid ++ "/" ++ cid) ("sol_" ++ pad4 idx ++ "_") q.solutionImage
  simp only [process_question, List.length_append]
  omega

/-- C10: any backend value other than `"local"` and `"s3"` constructs an
`ImageStore` successfully (startup does not fail); every `download` through
it returns `none` (the internal unsupported-backend `ValueError` is raised
inside the catch-all handler and swallowed), so every normalized record's
image fields are omitted rather than a configuration error being reported. -/
theorem c10_unsupported_backend_swallowed (backend : String)
    (h1 : backend ≠ "local") (h2 : backend ≠ "s3")
    (envBucket envPre envRegion : Option String) :
    ImageStore.init backend envBucket envPre envRegion =
      Except.ok ⟨backend, none, none, none⟩ ∧
    (∀ (fetch : String → Option Response) (url : String) (sp : SavePath),
      ((ImageStore.mk backend none none none).download fetch url sp).result = none) ∧
    (∀ (fetch : String → Option Response) (sha1h : String → String)
      (eid sid cid : String) (q : RawQuestion) (idx : Nat),
      (process_question ⟨backend, none, none, none⟩ fetch sha1h eid sid cid q idx).1.question.image
          = none ∧
      (process_question ⟨backend, none, none, none⟩ fetch sha1h eid sid cid q idx).1.solution.image
          = none ∧
      ∀ o ∈ (process_question ⟨backend, none, none, none⟩ fetch sha1h eid sid cid q idx).1.options,
        o.image = none) := by
  refine ⟨by simp [ImageStore.init, h2], fun fetch url sp => ?_, fun fetch sha1h eid sid cid q idx => ?_⟩
  · exact download_unsupported_none ⟨backend, none, none, none⟩ h1 h2 fetch url sp
  · refine ⟨?_, ?_, ?_⟩
    · simp [process_question, assetStep_none_of_unsupported ⟨backend, none, none, none⟩ h1 h2]
    · simp [process_question, assetStep_none_of_unsupported ⟨backend, none, none, none⟩ h1 h2]
    · intro o ho
      simp only [process_question] at ho
      exact optionsLoop_image_none ⟨backend, none, none, none⟩ h1 h2 fetch sha1h _ idx q.options 0 o ho

/-- C10 witness: backend `"ftp"` constructs, and a record produced through it
has no image fields even though the fetch itself succeeds. -/
theorem c10_witness :
    ImageStore.init "ftp" none none none = Except.ok ⟨"ftp", none, none, none⟩ ∧
    (∀ (fetch : String → Option Response) (url : String) (sp : SavePath),
      ((ImageStore.mk "ftp" none none none).download fetch url sp).result = none) ∧
    (∀ (fetch : String → Option Response) (sha1h : String → String)
      (eid sid cid : String) (q : RawQuestion) (idx : Nat),
      (process_question ⟨"ftp", none, none, none⟩ fetch sha1h eid sid cid q idx).1.question.image
          = none ∧
      (process_question ⟨"ftp", none, none, none⟩ fetch sha1h eid sid cid q idx).1.solution.image
          = none ∧
      ∀ o ∈ (process_question ⟨"ftp", none, none, none⟩ fetch sha1h eid sid cid q idx).1.options,
        o.image = none) :=
  c10_unsupported_backend_swallowed "ftp" (by decide) (by decide) none none none

theorem qLoop_no_quota (cfg : Config) (hq : cfg.maxQuestions = 0) (eid sid cid : String) :
    ∀ (items : List Item) (idx totalQ qcount : Nat) (lines : List PQuestion) (rows : List QRow),
      (qLoop cfg eid sid cid items idx totalQ qcount lines rows).1 =
        lines ++ (items.enumFrom idx).filterMap (lineOf cfg eid sid cid) := by
  intro items
  induction items with
  | nil => intros; simp [qLoop]
  | cons it rest ih =>
    intro idx totalQ qcount lines rows
    simp only [qLoop, hq]
    cases it with
    | bad => simp [List.enumFrom, lineOf, ih]
    | ok q => simp [List.enumFrom, lineOf, ih, List.append_assoc]

theorem qLoop_lines_mem (cfg : Config) (eid sid cid : String) :
    ∀ (items : List Item) (idx totalQ qcount : Nat) (lines : List PQuestion)
      (rows : List QRow) (p : PQuestion),
      p ∈ (qLoop cfg eid sid cid items idx totalQ qcount lines rows).1 →
      p ∈ lines ∨ ∃ j q, items.get? j = some (Item.ok q) ∧
        p = (process_question cfg.store cfg.fetchImg cfg.sha1h eid sid cid q (idx + j)).1 := by
  intro items
  induction items with
  | nil => intro idx totalQ qcount lines rows p hp; exact Or.inl (by simpa [qLoop] using hp)
  | cons it rest ih =>
    intro idx totalQ qcount lines rows p hp
    simp only [qLoop] at hp
    split at hp
    · exact Or.inl hp
    · cases it with
      | bad =>
        rcases ih (idx + 1) totalQ qcount lines rows p hp with h | ⟨j, q, hj, hpq⟩
        · exact Or.inl h
        · exact Or.inr ⟨j + 1, q, by simpa using hj, by simpa [Nat.add_assoc, Nat.add_comm 1 j] using hpq⟩
      | ok q0 =>
        rcases ih (idx + 1) (totalQ + 1) (qcount + 1) (lines ++ [_]) _ p hp with h | ⟨j, q, hj, hpq⟩
        · rcases List.mem_append.mp h with h | h
          · exact Or.inl h
          · refine Or.inr ⟨0, q0, by simp, ?_⟩
            simpa using List.mem_singleton.mp h
        · exact Or.inr ⟨j + 1, q, by simpa using hj, by simpa [Nat.add_assoc, Nat.add_comm 1 j] using hpq⟩

theorem qLoop_rows_mem (cfg : Config) (eid sid cid : String) :
    ∀ (items : List Item) (idx totalQ qcount : Nat) (lines : List PQuestion)
      (rows : List QRow) (r : QRow),
      r ∈ (qLoop cfg eid sid cid items idx totalQ qcount lines rows).2.1 →
      r ∈ rows ∨ ∃ j q, items.get? j = some (Item.ok q) ∧
        r = ⟨eid, sid, cid, idx + j,
          (process_question cfg.store cfg.fetchImg cfg.sha1h eid sid cid q (idx + j)).1⟩ := by
  intro items
  induction items with
  | nil => intro idx totalQ qcount lines rows r hr; exact Or.inl (by simpa [qLoop] using hr)
  | cons it rest ih =>
    intro idx totalQ qcount lines rows r hr
    simp only [qLoop] at hr
    split at hr
    · exact Or.inl hr
    · cases it with
      | bad =>
        rcases ih (idx + 1) totalQ qcount lines rows r hr with h | ⟨j, q, hj, hrq⟩
        · exact Or.inl h
        · exact Or.inr ⟨j + 1, q, by simpa using hj, by simpa [Nat.add_assoc, Nat.add_comm 1 j] using hrq⟩
      | ok q0 =>
        rcases ih (idx + 1) (totalQ + 1) (qcount + 1) _ _ r hr with h | ⟨j, q, hj, hrq⟩
        · by_cases hdb : cfg.useDb
          · simp only [hdb, if_pos] at h
            rcases List.mem_append.mp h with h | h
            · exact Or.inl h
            · refine Or.inr ⟨0, q0, by simp, ?_⟩
              simpa using List.mem_singleton.mp h
          · simp only [hdb] at h
            exact Or.inl (by simpa using h)
        · exact Or.inr ⟨j + 1, q, by simpa using hj, by simpa [Nat.add_assoc, Nat.add_comm 1 j] using hrq⟩

theorem process_question_index (st : ImageStore) (fetch : String → Option Response)
    (sha1h : String → String) (eid sid cid : String) (q : RawQuestion) (idx : Nat) :
    (process_question st fetch sha1h eid sid cid q idx).1.index = idx := by
  simp [process_question]

/-- C2: a normalization error on one item of a non-empty subgroup is caught
at the item level — the subgroup still returns a summary (its stream is not
aborted and the walk continues), and the output file contains exactly the
normalized records of the well-formed items, every other well-formed item
included.  (Stated for a run without an item quota, which is the regime the
claim describes.) -/
theorem c2_item_failure_isolation (cfg : Config) (cat : Catalog) (exam : Exam)
    (subject : Subject) (chapter : Chapter) (st : RunState)
    (hq : cfg.maxQuestions = 0)
    (hs : ¬(cfg.subjectIdFilter ≠ "" ∧ subject.id ≠ cfg.subjectIdFilter))
    (hc : ¬(cfg.chapterIdFilter ≠ "" ∧ chapter.id ≠ cfg.chapterIdFilter))
    (hne : cat.questions exam.id subject.id chapter.id ≠ []) :
    (process_chapter cfg cat exam subject chapter st).2.isSome = true ∧
    ∃ f : FileOut,
      (process_chapter cfg cat exam subject chapter st).1.files = st.files ++ [f] ∧
      f.lines = ((cat.questions exam.id subject.id chapter.id).enumFrom 0).filterMap
        (lineOf cfg exam.id subject.id chapter.id) := by
  simp only [process_chapter, if_neg hs, if_neg hc, if_neg hne]
  exact ⟨rfl, ⟨_, rfl, by
    simpa using (qLoop_no_quota cfg hq exam.id subject.id chapter.id
      (cat.questions exam.id subject.id chapter.id) 0 st.progress.totalQuestions 0 [] [])⟩⟩

/-- C2 witness: a chapter whose item list is `[well-formed, malformed,
well-formed]` still produces a file containing both well-formed records. -/
theorem c2_witness :
    (process_chapter cfgNoQ catMix exam0 subj0 chap0 initState).2.isSome = true ∧
    ∃ f : FileOut,
      (process_chapter cfgNoQ catMix exam0 subj0 chap0 initState).1.files =
        initState.files ++ [f] ∧
      f.lines = ((catMix.questions exam0.id subj0.id chap0.id).enumFrom 0).filterMap
        (lineOf cfgNoQ exam0.id subj0.id chap0.id) :=
  c2_item_failure_isolation cfgNoQ catMix exam0 subj0 chap0 initState (by decide)
    (by decide) (by decide) (by decide)

/-- C9: every record written for a subgroup carries as `index` its 0-based
position in the fetched item list (it equals the enumeration index passed to
`process_question`, not a dense count of written records), and every
relational row's `question_index` equals its payload's `index` and points at
a well-formed source position; skipped items therefore leave gaps. -/
theorem c9_index_is_source_position (cfg : Config) (cat : Catalog) (exam : Exam)
    (subject : Subject) (chapter : Chapter) (st : RunState)
    (hs : ¬(cfg.subjectIdFilter ≠ "" ∧ subject.id ≠ cfg.subjectIdFilter))
    (hc : ¬(cfg.chapterIdFilter ≠ "" ∧ chapter.id ≠ cfg.chapterIdFilter))
    (hne : cat.questions exam.id subject.id chapter.id ≠ []) :
    (∃ f : FileOut,
      (process_chapter cfg cat exam subject chapter st).1.files = st.files ++ [f] ∧
      ∀ p ∈ f.lines, ∃ q,
        (cat.questions exam.id subject.id chapter.id).get? p.index = some (Item.ok q) ∧
        p = (process_question cfg.store cfg.fetchImg cfg.sha1h
          exam.id subject.id chapter.id q p.index).1) ∧
    (∀ r ∈ (process_chapter cfg cat exam subject chapter st).1.questionRows,
      r ∈ st.questionRows ∨
      (r.questionIndex = r.payload.index ∧ ∃ q,
        (cat.questions exam.id subject.id chapter.id).get? r.questionIndex =
          some (Item.ok q))) := by
  simp only [process_chapter, if_neg hs, if_neg hc, if_neg hne]
  constructor
  · refine ⟨_, rfl, fun p hp => ?_⟩
    rcases qLoop_lines_mem cfg exam.id subject.id chapter.id
        (cat.questions exam.id subject.id chapter.id) 0 st.progress.totalQuestions 0 [] [] p hp
      with h | ⟨j, q, hj, hpq⟩
    · simp at h
    · refine ⟨q, ?_, ?_⟩
      · have : p.index = j := by
          rw [hpq]; simpa using process_question_index cfg.store cfg.fetchImg cfg.sha1h
            exam.id subject.id chapter.id q (0 + j)
        rw [this]; simpa using hj
      · have : p.index = j := by
          rw [hpq]; simpa using process_question_index cfg.store cfg.fetchImg cfg.sha1h
            exam.id subject.id chapter.id q (0 + j)
        rw [this]; simpa using hpq
  · intro r hr
    rcases List.mem_append.mp hr with h | h
    · exact Or.inl h
    · rcases qLoop_rows_mem cfg exam.id subject.id chapter.id
          (cat.questions exam.id subject.id chapter.id) 0 st.progress.totalQuestions 0 [] [] r h
        with h2 | ⟨j, q, hj, hrq⟩
      · simp at h2
      · refine Or.inr ⟨?_, q, ?_⟩
        · rw [hrq]; simp [process_question_index]
        · have : r.questionIndex = j := by rw [hrq]; simp
          rw [this]; simpa using hj

/-- C9 witness: with items `[ok, malformed, ok]` the written indices are the
source positions, leaving a gap at position 1. -/
theorem c9_witness :
    (∃ f : FileOut,
      (process_chapter cfgNoQ catMix exam0 subj0 chap0 initState).1.files =
        initState.files ++ [f] ∧
      ∀ p ∈ f.lines, ∃ q,
        (catMix.questions exam0.id subj0.id chap0.id).get? p.index = some (Item.ok q) ∧
        p = (process_question cfgNoQ.store cfgNoQ.fetchImg cfgNoQ.sha1h
          exam0.id subj0.id chap0.id q p.index).1) ∧
    (∀ r ∈ (process_chapter cfgNoQ catMix exam0 subj0 chap0 initState).1.questionRows,
      r ∈ initState.questionRows ∨
      (r.questionIndex = r.payload.index ∧ ∃ q,
        (catMix.questions exam0.id subj0.id chap0.id).get? r.questionIndex =
          some (Item.ok q))) :=
  c9_index_is_source_position cfgNoQ catMix exam0 subj0 chap0 initState
    (by decide) (by decide) (by decide)

theorem process_chapter_indexWrites (cfg : Config) (cat : Catalog) (exam : Exam)
    (subject : Subject) (chapter : Chapter) (st : RunState) :
    (process_chapter cfg cat exam subject chapter st).1.indexWrites = st.indexWrites := by
  by_cases h1 : cfg.subjectIdFilter ≠ "" ∧ subject.id ≠ cfg.subjectIdFilter
  · simp [process_chapter, h1]
  · by_cases h2 : cfg.chapterIdFilter ≠ "" ∧ chapter.id ≠ cfg.chapterIdFilter
    · simp [process_chapter, h1, h2]
    · by_cases h3 : cat.questions exam.id subject.id chapter.id = []
      · simp [process_chapter, h1, h2, h3]
      · simp [process_chapter, h1, h2, h3]

theorem chapterStep_indexWrites (cfg : Config) (cat : Catalog) (exam : Exam)
    (subject : Subject) (chapter : Chapter) (st : RunState) :
    (chapterStep cfg cat exam subject chapter st).indexWrites = st.indexWrites := by
  unfold chapterStep
  cases h : (process_chapter cfg cat exam subject chapter st).2 <;>
    simp [h, process_chapter_indexWrites]

theorem chaptersLoop_indexWrites (cfg : Config) (cat : Catalog) (exam : Exam)
    (subject : Subject) :
    ∀ (chs : List Chapter) (st : RunState),
      (chaptersLoop cfg cat exam subject chs st).indexWrites = st.indexWrites := by
  intro chs
  induction chs with
  | nil => intro st; rfl
  | cons c rest ih =>
    intro st
    simp only [chaptersLoop, apply_ite RunState.indexWrites, ih, chapterStep_indexWrites,
      ite_self]

theorem subjectsLoop_indexWrites (cfg : Config) (cat : Catalog) (exam : Exam) :
    ∀ (subs : List Subject) (st : RunState),
      (subjectsLoop cfg cat exam subs st).indexWrites = st.indexWrites := by
  intro subs
  induction subs with
  | nil => intro st; rfl
  | cons s rest ih =>
    intro st
    simp only [subjectsLoop, apply_ite RunState.indexWrites, ih, chaptersLoop_indexWrites,
      ite_self]

theorem examsLoop_indexWrites (cfg : Config) (cat : Catalog) :
    ∀ (exams : List Exam) (st : RunState),
      (examsLoop cfg cat exams st).indexWrites = st.indexWrites := by
  intro exams
  induction exams with
  | nil => intro st; rfl
  | cons e rest ih =>
    intro st
    simp only [examsLoop, apply_ite RunState.indexWrites, ih, subjectsLoop_indexWrites,
      ite_self]

/-- C7 counterexample: a run whose dashboard request fails finds no exams and
ends without writing the master index at all — zero writes, not one. -/
theorem c7_cex : (mainRun cfg0 catEmpty).indexWrites.length = 0 := by decide

/-- C7 (amended): whenever at least one exam survives the dashboard filter,
the master index is written exactly once, at the end after the traversal; a
run that finds no exams aborts early and never writes it. -/
theorem c7_index_written_once (cfg : Config) (cat : Catalog)
    (h : get_jee_exams cat cfg ≠ []) :
    (mainRun cfg cat).indexWrites.length = 1 := by
  simp [mainRun, if_neg h, examsLoop_indexWrites, initState]

/-- C7 witness: a concrete run with one exam writes the index exactly once. -/
theorem c7_witness : (mainRun cfg0 cat0).indexWrites.length = 1 :=
  c7_index_written_once cfg0 cat0 (by decide)

theorem qLoop_saturated (cfg : Config) (eid sid cid : String) (hq : cfg.maxQuestions ≠ 0) :
    ∀ (items : List Item) (idx totalQ qcount : Nat) (lines : List PQuestion) (rows : List QRow),
      cfg.maxQuestions ≤ totalQ →
      qLoop cfg eid sid cid items idx totalQ qcount lines rows = (lines, rows, qcount, totalQ) := by
  intro items
  cases items with
  | nil => intros; rfl
  | cons it rest =>
    intro idx totalQ qcount lines rows hsat
    simp [qLoop, hq, hsat]

/-- C6 counterexample: with an item quota of 1 and two one-item chapters, the
quota is reached inside the first chapter, yet the second chapter still
produces an output file (empty), a summary entry and a relational chapter
row — refuting the claim that subsequent subgroups produce none of these. -/
theorem c6_cex :
    cfg0.maxQuestions = 1 ∧
    (mainRun cfg0 cat0).progress.totalQuestions = 1 ∧
    (mainRun cfg0 cat0).files.map (fun f => f.lines.length) = [1, 0] ∧
    (mainRun cfg0 cat0).allData.length = 2 ∧
    (mainRun cfg0 cat0).chapterRows.length = 2 := by decide

/-- C6 (amended): once the item quota is reached, later items of the current
subgroup and the items of every subsequent subgroup are not processed (no
records and no question rows are written), but each subsequent non-empty,
filter-passing subgroup is still visited and still produces an empty output
file, a summary entry with count 0, and (when the database sink is enabled) a
chapter summary row. -/
theorem c6_quota_truncation (cfg : Config) (cat : Catalog) (exam : Exam)
    (subject : Subject) (chapter : Chapter) (st : RunState)
    (hq : cfg.maxQuestions ≠ 0)
    (hsat : cfg.maxQuestions ≤ st.progress.totalQuestions)
    (hs : ¬(cfg.subjectIdFilter ≠ "" ∧ subject.id ≠ cfg.subjectIdFilter))
    (hc : ¬(cfg.chapterIdFilter ≠ "" ∧ chapter.id ≠ cfg.chapterIdFilter))
    (hne : cat.questions exam.id subject.id chapter.id ≠ []) :
    process_chapter cfg cat exam subject chapter st =
      ({ st with
          progress := { st.progress with
            processedChapters := st.progress.processedChapters + 1 },
          files := st.files ++ [⟨exam.id ++ "_" ++ subject.id ++ "_" ++ chapter.id ++ ".jsonl"
            ++ (if cfg.gzipOut then ".gz" else ""), []⟩],
          chapterRows := st.chapterRows ++ (if cfg.useDb then
            [⟨exam.id, subject.id, chapter.id, exam.name, subject.name, chapter.name, 0⟩]
          else []) },
       some ⟨exam.name, exam.id, subject.name, subject.id, chapter.name, chapter.id, 0,
         exam.id ++ "_" ++ subject.id ++ "_" ++ chapter.id ++ ".jsonl"
           ++ (if cfg.gzipOut then ".gz" else "")⟩) := by
  simp only [process_chapter, if_neg hs, if_neg hc, if_neg hne]
  rw [qLoop_saturated cfg exam.id subject.id chapter.id hq
    (cat.questions exam.id subject.id chapter.id) 0 st.progress.totalQuestions 0 [] [] hsat]
  simp

/-- C6 witness: a saturated state (one item already processed under quota 1)
makes the next chapter produce an empty file, a zero-count summary and a
chapter row. -/
theorem c6_witness :
    process_chapter cfg0 cat0 exam0 subj0 chap0 stSat =
      ({ stSat with
          progress := { stSat.progress with
            processedChapters := stSat.progress.processedChapters + 1 },
          files := stSat.files ++ [⟨exam0.id ++ "_" ++ subj0.id ++ "_" ++ chap0.id ++ ".jsonl"
            ++ (if cfg0.gzipOut then ".gz" else ""), []⟩],
          chapterRows := stSat.chapterRows ++ (if cfg0.useDb then
            [⟨exam0.id, subj0.id, chap0.id, exam0.name, subj0.name, chap0.name, 0⟩]
          else []) },
       some ⟨exam0.name, exam0.id, subj0.name, subj0.id, chap0.name, chap0.id, 0,
         exam0.id ++ "_" ++ subj0.id ++ "_" ++ chap0.id ++ ".jsonl"
           ++ (if cfg0.gzipOut then ".gz" else "")⟩) :=
  c6_quota_truncation cfg0 cat0 exam0 subj0 chap0 stSat (by decide) (by decide)
    (by decide) (by decide) (by decide)

/-- C8 counterexample: with the local backend, an asset whose URL path has no
extension is stored with extension `.jpg` even though the response declares
`image/png` — the content-type sniffing rule of the claim (which would give
`.png`) does not apply to locally stored assets, whose name is fixed before
the fetch. -/
theorem c8_cex :
    (process_question store0 fetchPng sha0 "e" "s" "c" qC8 0).2.map (fun p => p.2.stored) =
      [some (StoreEffect.localWrite "images/e/s/c/q_0000_h.jpg")] ∧
    splitextExt "images/e/s/c/q_0000_h.jpg" = ".jpg" ∧
    splitextExt (urlPath "https://h/img") = "" ∧
    get_file_extension "https://h/img" (some "image/png") = ".png" := by decide

/-- C8 (amended): the stored extension is derived from the URL path when the
path has one (lower-cased); when it has none, an s3-stored asset's key gets
the extension sniffed from the response's declared content type (default
`.jpg`), while a locally stored asset keeps the extension computed before the
fetch from the URL alone, hence always `.jpg` in that case. -/
theorem c8_extension_derivation (st : ImageStore) (fetch : String → Option Response)
    (sha1h : String → String) (imgDir namePre url : String) (resp : Response)
    (hu1 : url ≠ "") (hu2 : strStarts url "/" = false) (hf : fetch url = some resp) :
    (st.backend = "local" →
      (assetStep st fetch sha1h imgDir namePre url).2.map (fun p => p.2.stored) =
        [some (StoreEffect.localWrite
          (imgDir ++ "/" ++ (namePre ++ sha1h url ++ get_file_extension url none)))]) ∧
    (st.backend = "s3" →
      (assetStep st fetch sha1h imgDir namePre url).2.map (fun p => p.2.stored) =
        [some (StoreEffect.s3Upload
          (optStr st.s3Pre ++ "/" ++
            pathlibStem (namePre ++ sha1h url ++ get_file_extension url none) ++
            get_file_extension url resp.contentType))]) ∧
    (∀ ct, splitextExt (urlPath url) ≠ "" →
      get_file_extension url ct = strLower (splitextExt (urlPath url))) ∧
    (splitextExt (urlPath url) = "" → get_file_extension url none = ".jpg") := by
  refine ⟨?_, ?_, ?_, ?_⟩
  · intro hb
    simp [assetStep, hu1, ImageStore.download, hu2, hf, hb]
  · intro hb
    simp [assetStep, hu1, ImageStore.download, hu2, hf, hb]
  · intro ct h
    simp [get_file_extension, h]
  · intro h
    simp [get_file_extension, h]

/-- C8 witness: a URL whose path ends in `.PNG` keeps (lower-cased) `.png`
locally and on s3, regardless of the declared content type. -/
theorem c8_witness :
    (store0.backend = "local" →
      (assetStep store0 fetchPng sha0 "d" "p_" "https://h/a.PNG").2.map (fun p => p.2.stored) =
        [some (StoreEffect.localWrite
          ("d" ++ "/" ++ ("p_" ++ sha0 "https://h/a.PNG" ++
            get_file_extension "https://h/a.PNG" none)))]) ∧
    (store0.backend = "s3" →
      (assetStep store0 fetchPng sha0 "d" "p_" "https://h/a.PNG").2.map (fun p => p.2.stored) =
        [some (StoreEffect.s3Upload
          (optStr store0.s3Pre ++ "/" ++
            pathlibStem ("p_" ++ sha0 "https://h/a.PNG" ++
              get_file_extension "https://h/a.PNG" none) ++
            get_file_extension "https://h/a.PNG" (Response.mk (some "image/png")).contentType))]) ∧
    (∀ ct, splitextExt (urlPath "https://h/a.PNG") ≠ "" →
      get_file_extension "https://h/a.PNG" ct =
        strLower (splitextExt (urlPath "https://h/a.PNG"))) ∧
    (splitextExt (urlPath "https://h/a.PNG") = "" →
      get_file_extension "https://h/a.PNG" none = ".jpg") :=
  c8_extension_derivation store0 fetchPng sha0 "d" "p_" "https://h/a.PNG"
    ⟨some "image/png"⟩ (by decide) (by decide) rfl

theorem qLoop_line_count (cfg : Config) (eid sid cid : String) :
    ∀ (items : List Item) (idx totalQ qcount : Nat) (lines : List PQuestion) (rows : List QRow),
      (qLoop cfg eid sid cid items idx totalQ qcount lines rows).1.length + totalQ =
        lines.length + (qLoop cfg eid sid cid items idx totalQ qcount lines rows).2.2.2 := by
  intro items
  induction items with
  | nil => intros; simp [qLoop]
  | cons it rest ih =>
    intro idx totalQ qcount lines rows
    cases it with
    | bad =>
      simp only [qLoop]
      split
      · simp
      · exact ih (idx + 1) totalQ qcount lines rows
    | ok q =>
      simp only [qLoop]
      split
      · simp
      · have h := ih (idx + 1) (totalQ + 1) (qcount + 1)
          (lines ++ [(process_question cfg.store cfg.fetchImg cfg.sha1h eid sid cid q idx).1])
          (if cfg.useDb then rows ++ [⟨eid, sid, cid, idx,
            (process_question cfg.store cfg.fetchImg cfg.sha1h eid sid cid q idx).1⟩] else rows)
        simp only [List.length_append, List.length_singleton] at h
        omega

theorem qLoop_total_le (cfg : Config) (eid sid cid : String) (hq : cfg.maxQuestions ≠ 0) :
    ∀ (items : List Item) (idx totalQ qcount : Nat) (lines : List PQuestion) (rows : List QRow),
      totalQ ≤ cfg.maxQuestions →
      (qLoop cfg eid sid cid items idx totalQ qcount lines rows).2.2.2 ≤ cfg.maxQuestions := by
  intro items
  induction items with
  | nil => intro idx totalQ qcount lines rows h; simpa [qLoop] using h
  | cons it rest ih =>
    intro idx totalQ qcount lines rows h
    simp only [qLoop]
    split
    · simpa using h
    · rename_i hcond
      have hlt : totalQ < cfg.maxQuestions := by
        rcases Nat.lt_or_ge totalQ cfg.maxQuestions with h2 | h2
        · exact h2
        · exact absurd ⟨hq, h2⟩ hcond
      cases it with
      | bad => exact ih (idx + 1) totalQ qcount lines rows h
      | ok q => exact ih (idx + 1) (totalQ + 1) (qcount + 1) _ _ hlt

theorem process_chapter_cases (cfg : Config) (cat : Catalog) (exam : Exam)
    (subject : Subject) (chapter : Chapter) (st : RunState) :
    process_chapter cfg cat exam subject chapter st = (st, none) ∨
    ∃ (fn : String) (lines : List PQuestion) (rows : List QRow) (qc tq : Nat),
      process_chapter cfg cat exam subject chapter st =
        ({ st with
            progress := { st.progress with
              totalQuestions := tq,
              processedChapters := st.progress.processedChapters + 1 },
            files := st.files ++ [⟨fn, lines⟩],
            questionRows := st.questionRows ++ rows,
            chapterRows := st.chapterRows ++ (if cfg.useDb then
              [⟨exam.id, subject.id, chapter.id, exam.name, subject.name, chapter.name, qc⟩]
            else []) },
         some ⟨exam.name, exam.id, subject.name, subject.id, chapter.name, chapter.id, qc, fn⟩) ∧
      lines.length + st.progress.totalQuestions = tq ∧
      (cfg.maxQuestions ≠ 0 → st.progress.totalQuestions ≤ cfg.maxQuestions →
        tq ≤ cfg.maxQuestions) := by
  by_cases h1 : cfg.subjectIdFilter ≠ "" ∧ subject.id ≠ cfg.subjectIdFilter
  · exact Or.inl (by simp [process_chapter, h1])
  · by_cases h2 : cfg.chapterIdFilter ≠ "" ∧ chapter.id ≠ cfg.chapterIdFilter
    · exact Or.inl (by simp [process_chapter, h1, h2])
    · by_cases h3 : cat.questions exam.id subject.id chapter.id = []
      · exact Or.inl (by simp [process_chapter, h1, h2, h3])
      · refine Or.inr ⟨exam.id ++ "_" ++ subject.id ++ "_" ++ chapter.id ++ ".jsonl"
          ++ (if cfg.gzipOut then ".gz" else ""),
          (qLoop cfg exam.id subject.id chapter.id
            (cat.questions exam.id subject.id chapter.id) 0 st.progress.totalQuestions 0 [] []).1,
          (qLoop cfg exam.id subject.id chapter.id
            (cat.questions exam.id subject.id chapter.id) 0 st.progress.totalQuestions 0 [] []).2.1,
          (qLoop cfg exam.id subject.id chapter.id
            (cat.questions exam.id subject.id chapter.id) 0 st.progress.totalQuestions 0 [] []).2.2.1,
          (qLoop cfg exam.id subject.id chapter.id
            (cat.questions exam.id subject.id chapter.id) 0 st.progress.totalQuestions 0 [] []).2.2.2,
          ?_, ?_, ?_⟩
        · simp [process_chapter, h1, h2, h3]
        · simpa using qLoop_line_count cfg exam.id subject.id chapter.id
            (cat.questions exam.id subject.id chapter.id) 0 st.progress.totalQuestions 0 [] []
        · intro hq hle
          exact qLoop_total_le cfg exam.id subject.id chapter.id hq
            (cat.questions exam.id subject.id chapter.id) 0 st.progress.totalQuestions 0 [] [] hle

theorem chapterStep_quotaInv (cfg : Config) (cat : Catalog) (exam : Exam)
    (subject : Subject) (chapter : Chapter) (st : RunState)
    (h : quotaInv cfg st)
    (hch : cfg.maxChapters ≠ 0 → st.progress.processedChapters < cfg.maxChapters) :
    quotaInv cfg (chapterStep cfg cat exam subject chapter st) := by
  simp only [quotaInv] at h
  obtain ⟨h1, h2, h3, h4⟩ := h
  rcases process_chapter_cases cfg cat exam subject chapter st with
    hc | ⟨fn, lines, rows, qc, tq, heq, hlen, hle⟩
  · simpa [chapterStep, hc, quotaInv] using ⟨h1, h2, h3, h4⟩
  · have hstep : chapterStep cfg cat exam subject chapter st =
      { st with
          progress := { st.progress with
            totalQuestions := tq,
            processedChapters := st.progress.processedChapters + 1 },
          allData := st.allData ++ [⟨exam.name, exam.id, subject.name, subject.id,
            chapter.name, chapter.id, qc, fn⟩],
          files := st.files ++ [⟨fn, lines⟩],
          questionRows := st.questionRows ++ rows,
          chapterRows := st.chapterRows ++ (if cfg.useDb then
            [⟨exam.id, subject.id, chapter.id, exam.name, subject.name, chapter.name, qc⟩]
          else []) } := by
      simp [chapterStep, heq]
    rw [hstep]
    simp only [quotaInv]
    refine ⟨?_, ?_, ?_, ?_⟩
    · simp only [totalRecords, List.map_append, List.sum_append] at h1 ⊢
      simp only [List.map_cons, List.map_nil, List.sum_cons, List.sum_nil]
      omega
    · simpa using h2
    · intro hq
      exact hle hq (h3 hq)
    · intro hcq
      have := hch hcq
      simpa using this

theorem chaptersLoop_quotaInv (cfg : Config) (cat : Catalog) (exam : Exam) (subject : Subject) :
    ∀ (chs : List Chapter) (st : RunState), quotaInv cfg st →
      quotaInv cfg (chaptersLoop cfg cat exam subject chs st) := by
  intro chs
  induction chs with
  | nil => intro st h; exact h
  | cons c rest ih =>
    intro st h
    simp only [chaptersLoop]
    split
    · exact h
    · rename_i hcond
      refine ih _ (chapterStep_quotaInv cfg cat exam subject c st h ?_)
      intro hcq
      by_contra hge
      exact hcond ⟨hcq, Nat.le_of_not_lt hge⟩

theorem subjectsLoop_quotaInv (cfg : Config) (cat : Catalog) (exam : Exam) :
    ∀ (subs : List Subject) (st : RunState), quotaInv cfg st →
      quotaInv cfg (subjectsLoop cfg cat exam subs st) := by
  intro subs
  induction subs with
  | nil => intro st h; exact h
  | cons s rest ih =>
    intro st h
    simp only [subjectsLoop]
    split <;> split
    all_goals first
      | exact chaptersLoop_quotaInv cfg cat exam s _ _ h
      | exact ih _ (chaptersLoop_quotaInv cfg cat exam s _ _ h)

theorem examsLoop_quotaInv (cfg : Config) (cat : Catalog) :
    ∀ (exams : List Exam) (st : RunState), quotaInv cfg st →
      quotaInv cfg (examsLoop cfg cat exams st) := by
  intro exams
  induction exams with
  | nil => intro st h; exact h
  | cons e rest ih =>
    intro st h
    simp only [examsLoop]
    split <;> split
    all_goals first
      | exact subjectsLoop_quotaInv cfg cat e _ _ h
      | exact ih _ (subjectsLoop_quotaInv cfg cat e _ _ h)

/-- C3: with an item quota `N > 0`, the total number of records appended
across all output streams of a run is at most `N`; with a chapter quota
`M > 0`, the number of chapter summaries in the written master index is at
most `M`. -/
theorem c3_quota_laws (cfg : Config) (cat : Catalog) :
    (cfg.maxQuestions ≠ 0 → totalRecords (mainRun cfg cat) ≤ cfg.maxQuestions) ∧
    (cfg.maxChapters ≠ 0 → ∀ mi ∈ (mainRun cfg cat).indexWrites,
      mi.chapters.length ≤ cfg.maxChapters) := by
  by_cases h : get_jee_exams cat cfg = []
  · constructor
    · intro _
      simp [mainRun, h, totalRecords, initState]
    · intro _ mi hmi
      simp [mainRun, h, initState] at hmi
  · have hinv := examsLoop_quotaInv cfg cat (get_jee_exams cat cfg)
      { initState with progress :=
          { initState.progress with totalExams := (get_jee_exams cat cfg).length } }
      (by simp [quotaInv, initState, totalRecords])
    simp only [quotaInv] at hinv
    obtain ⟨h1, h2, h3, h4⟩ := hinv
    simp only [initState] at h1 h2 h3 h4
    constructor
    · intro hq
      have he : totalRecords (mainRun cfg cat) =
          totalRecords (examsLoop cfg cat (get_jee_exams cat cfg)
            ⟨⟨(get_jee_exams cat cfg).length, 0, 0, 0, 0⟩, [], [], [], [], []⟩) := by
        simp [mainRun, if_neg h, totalRecords, initState]
      rw [he, h1]
      exact h3 hq
    · intro hcq mi hmi
      simp only [mainRun, if_neg h, examsLoop_indexWrites, initState] at hmi
      simp only [List.nil_append, List.mem_singleton] at hmi
      subst hmi
      simpa [h2] using h4 hcq

/-- C3 witness: with both quotas set to 1 on a two-chapter catalog, at most
one record is appended and the written index holds at most one summary. -/
theorem c3_witness :
    totalRecords (mainRun cfgQ cat0) ≤ cfgQ.maxQuestions ∧
    ∀ mi ∈ (mainRun cfgQ cat0).indexWrites, mi.chapters.length ≤ cfgQ.maxChapters :=
  ⟨(c3_quota_laws cfgQ cat0).1 (by decide), (c3_quota_laws cfgQ cat0).2 (by decide)⟩

end Getmarks
